import Mathlib

/-!
Shallow embedding of the NAP (Name/Address/Phone) normalization and fuzzy
matching engine of the geo-analysis repository (`src/App.tsx`, identical copy
in `api/get-analysis.ts`), together with theorems settling the frozen claims.

JavaScript strings are modelled as `List Char` (ASCII semantics for the
case-conversion and character-class operations, which is what every code path
of the engine exercises).  JavaScript regular-expression constructs that the
code relies on are modelled explicitly:

* `\b` is a word boundary: it holds at a position iff exactly one of the two
  surrounding characters is a word character (`[A-Za-z0-9_]`), with the ends
  of the string counting as non-word;
* an unescaped `.` inside a pattern built by `new RegExp` (the abbreviation
  dictionary keys such as `"st."`) matches any character except a line
  terminator;
* `X.replace(re, r)` with the `g` flag performs a left-to-right scan,
  replacing each non-overlapping leftmost match and continuing after it
  (the replacement text is not rescanned);
* alternation tries alternatives left to right, backtracking to the next
  alternative when the continuation fails;
* greedy quantifiers backtrack (shrink) when the continuation fails.

Numeric results (`levenshteinSimilarity`, score details) are modelled in `ℚ`.
-/

namespace GeoAnalysis

/-- JavaScript strings, as lists of characters. -/
abbrev Str := List Char

/-- JS regex `\w`: `[A-Za-z0-9_]`. -/
def isWordChar (c : Char) : Bool :=
  (('a' ≤ c && c ≤ 'z') || ('A' ≤ c && c ≤ 'Z') || ('0' ≤ c && c ≤ '9') || c = '_')

/-- JS regex `\d`: `[0-9]`. -/
def jsIsDigit (c : Char) : Bool := '0' ≤ c && c ≤ '9'

/-- JS regex `\s` (the ASCII part): space, tab, line feed, vertical tab,
form feed, carriage return. -/
def jsIsSpace (c : Char) : Bool :=
  (c = ' ' || c = '\t' || c = '\n' || c = '\x0b' || c = '\x0c' || c = '\r')

/-- Lower-case ASCII letter. -/
def isLowerAZ (c : Char) : Bool := 'a' ≤ c && c ≤ 'z'

/-- Upper-case ASCII letter (the regex class `[A-Z]`). -/
def isUpperAZ (c : Char) : Bool := 'A' ≤ c && c ≤ 'Z'

/-- `[a-z0-9]` (kept by the `replace(/[^a-z0-9]/g, '')` steps). -/
def isLowerDigit (c : Char) : Bool := isLowerAZ c || jsIsDigit c

/-- ASCII `toLowerCase` on one character. -/
def lowerChar (c : Char) : Char :=
  if isUpperAZ c then Char.ofNat (c.toNat + 32) else c

/-- ASCII `toUpperCase` on one character. -/
def upperChar (c : Char) : Char :=
  if isLowerAZ c then Char.ofNat (c.toNat - 32) else c

/-- JS `String.prototype.toLowerCase` (ASCII). -/
def jsToLower (s : Str) : Str := s.map lowerChar

/-- JS `String.prototype.toUpperCase` (ASCII). -/
def jsToUpper (s : Str) : Str := s.map upperChar

/-- JS `String.prototype.trim`: strip leading and trailing whitespace. -/
def jsTrim (s : Str) : Str :=
  ((s.dropWhile jsIsSpace).reverse.dropWhile jsIsSpace).reverse

/-- JS `hay.includes(needle)`: substring containment. -/
def jsIncludes (hay needle : Str) : Bool :=
  match hay with
  | [] => needle.isEmpty
  | _ :: t => needle.isPrefixOf hay || jsIncludes t needle

/-- JS `s.split(',')`. -/
def splitComma : Str → List Str
  | [] => [[]]
  | c :: rest =>
    match splitComma rest with
    | [] => [[c]]
    | h :: t => if c = ',' then [] :: h :: t else (c :: h) :: t

/-- JS `\b` at a position, given the character before the position and the
character at it (`none` at the ends of the string): exactly one of the two
sides is a word character. -/
def boundaryB (prev cur : Option Char) : Bool :=
  (prev.map isWordChar).getD false != (cur.map isWordChar).getD false

/-- One character of a regex built from an abbreviation-dictionary key by
`new RegExp('\\b' + key + '\\b', 'gi')`: the key is not regex-escaped, so a
literal `.` inside it becomes the wildcard metacharacter. -/
inductive PatC
  | lit (c : Char)
  | any
deriving DecidableEq

/-- Compile a dictionary key to its (unescaped) regex body. -/
def mkPat (s : String) : List PatC :=
  s.toList.map fun c => if c = '.' then PatC.any else PatC.lit c

/-- Does the pattern match at the head of `s` (consuming `pat.length` chars)?
`.` matches anything but a line terminator. -/
def patMatch : List PatC → Str → Bool
  | [], _ => true
  | _, [] => false
  | PatC.lit c :: ps, x :: xs => (x = c) && patMatch ps xs
  | PatC.any :: ps, x :: xs => (x ≠ '\n' && x ≠ '\r') && patMatch ps xs

/-- Match `\b⟨pat⟩\b` at the head of `s` (the character preceding `s` in the
whole subject string is `prev`); returns the number of characters consumed. -/
def matchWordPat (pat : List PatC) (prev : Option Char) (s : Str) : Option Nat :=
  if boundaryB prev s.head? ∧ patMatch pat s ∧
      boundaryB (s.take pat.length).getLast? (s.drop pat.length).head? = true
  then some pat.length else none

/-- Global `s.replace(/\b⟨pat⟩\b/gi, repl)`: left-to-right scan, each leftmost
match replaced, scanning resuming after the match (without rescanning the
replacement).  `prev` is the character just before the current position in
the subject string; `skip` counts characters still to be consumed silently as
the tail of a match already replaced (so matching only restarts once the
previous match has been passed, making each step consume exactly one
character). -/
def replaceWP (pat : List PatC) (repl : Str) : Nat → Option Char → Str → Str
  | _, _, [] => []
  | skip + 1, _, c :: rest => replaceWP pat repl skip (some c) rest
  | 0, prev, c :: rest =>
    match matchWordPat pat prev (c :: rest) with
    | some n => repl ++ replaceWP pat repl (n - 1) (some c) rest
    | none => c :: replaceWP pat repl 0 (some c) rest

/-- `s.replace(/\b⟨pat⟩\b/gi, repl)` on a whole subject string. -/
def replaceWordPat (pat : List PatC) (repl : Str) (s : Str) : Str :=
  replaceWP pat repl 0 none s

/-- Match `\b(w₁|w₂|…)\b\.?` at the head of `s`: alternatives tried in order,
backtracking to the next alternative when the trailing `\b` fails; when
`eatDot` is set, a directly following literal `.` is consumed as well
(the `\.?` of the legal-entity-suffix regex). -/
def matchAlts (alts : List Str) (eatDot : Bool) (prev : Option Char) (s : Str) :
    Option Nat :=
  if boundaryB prev s.head? then
    alts.findSome? fun w =>
      if w.isPrefixOf s ∧ boundaryB w.getLast? (s.drop w.length).head? = true then
        some (w.length +
          (if eatDot ∧ (s.drop w.length).head? = some '.' then 1 else 0))
      else none
  else none

/-- Global replacement (with the empty string) of `\b(w₁|w₂|…)\b(\.?)`;
same scanning scheme as `replaceWP`. -/
def replaceAltsGo (alts : List Str) (eatDot : Bool) : Nat → Option Char → Str → Str
  | _, _, [] => []
  | skip + 1, _, c :: rest => replaceAltsGo alts eatDot skip (some c) rest
  | 0, prev, c :: rest =>
    match matchAlts alts eatDot prev (c :: rest) with
    | some n => replaceAltsGo alts eatDot (n - 1) (some c) rest
    | none => c :: replaceAltsGo alts eatDot 0 (some c) rest

def replaceAlts (alts : List Str) (eatDot : Bool) (s : Str) : Str :=
  replaceAltsGo alts eatDot 0 none s

/-- The character class `[a-z0-9-]` under the `i` flag. -/
def isUnitTok (c : Char) : Bool := isLowerDigit c || isUpperAZ c || c = '-'

/-- Greedy `…+\b` backtracking: largest `k` with `1 ≤ k ≤ run.length` such
that `\b` holds between the `k`-th character of the run and what follows it
in `r2` (`run` is the maximal `[a-z0-9-]*` prefix of `r2`). -/
def shrinkRun (r2 run : Str) : Nat → Option Nat
  | 0 => none
  | k + 1 =>
    if boundaryB run[k]? (r2.drop (k + 1)).head? then some (k + 1)
    else shrinkRun r2 run k

/-- Match the suite-removal regex
`\b(ste|suite|apt|apartment|unit|#)\s*[a-z0-9-]+\b` at the head of `s`. -/
def matchSuite (prev : Option Char) (s : Str) : Option Nat :=
  if boundaryB prev s.head? then
    (["ste", "suite", "apt", "apartment", "unit", "#"].map String.toList).findSome?
      fun w =>
        if w.isPrefixOf s then
          let r1 := s.drop w.length
          let ws := r1.takeWhile jsIsSpace
          let r2 := r1.drop ws.length
          let run := r2.takeWhile isUnitTok
          match shrinkRun r2 run run.length with
          | some k => some (w.length + ws.length + k)
          | none => none
        else none
  else none

/-- Global removal of suite/unit designators; same scanning scheme as
`replaceWP`. -/
def replaceSuiteGo : Nat → Option Char → Str → Str
  | _, _, [] => []
  | skip + 1, _, c :: rest => replaceSuiteGo skip (some c) rest
  | 0, prev, c :: rest =>
    match matchSuite prev (c :: rest) with
    | some n => replaceSuiteGo (n - 1) (some c) rest
    | none => c :: replaceSuiteGo 0 (some c) rest

def replaceSuite (s : Str) : Str := replaceSuiteGo 0 none s

/--
`normalizeName` (from the source): lowercase, strip legal-entity suffixes
(`\b(llc|inc|incorporated|ltd|limited|co|company)\b\.?`), strip articles
(`\b(the|a|an)\b`), keep `[a-z0-9]`, trim.
-/
def normalizeName (name : Str) : Str :=
  let n0 := jsToLower name
  let n1 := replaceAlts
    (["llc", "inc", "incorporated", "ltd", "limited", "co", "company"].map
      String.toList) true n0
  let n2 := replaceAlts (["the", "a", "an"].map String.toList) false n1
  jsTrim (n2.filter isLowerDigit)

/-- The abbreviation dictionary of `normalizeAddress`, in insertion order
(the order `Object.entries` iterates it). -/
def abbreviations : List (String × String) :=
  [("street", "st"), ("st.", "st"),
   ("avenue", "ave"), ("ave.", "ave"),
   ("boulevard", "blvd"), ("blvd.", "blvd"),
   ("road", "rd"), ("rd.", "rd"),
   ("drive", "dr"), ("dr.", "dr"),
   ("lane", "ln"), ("ln.", "ln"),
   ("court", "ct"), ("ct.", "ct"),
   ("circle", "cir"), ("cir.", "cir"),
   ("place", "pl"), ("pl.", "pl"),
   ("suite", "ste"), ("ste.", "ste"), ("#", "ste"),
   ("apartment", "apt"), ("apt.", "apt"),
   ("building", "bldg"), ("bldg.", "bldg"),
   ("floor", "fl"), ("fl.", "fl"),
   ("north", "n"), ("south", "s"), ("east", "e"), ("west", "w")]

/--
`normalizeAddress` (from the source): lowercase; apply each dictionary entry
as a whole-word global replacement (the key is pasted into the regex without
escaping, so `.` in a key is a wildcard); remove suite/unit designators;
keep `[a-z0-9]`.
-/
def normalizeAddress (address : Str) : Str :=
  let n0 := jsToLower address
  let n1 := abbreviations.foldl
    (fun acc p => replaceWordPat (mkPat p.1) p.2.toList acc) n0
  let n2 := replaceSuite n1
  n2.filter isLowerDigit

/-- The optional ZIP part of `/([A-Z]{2})\s*(\d{5}(?:-\d{4})?)?/`, matched
right after the two state letters; `''` when the group does not match. -/
def zipScan (r : Str) : Str :=
  let r2 := r.drop (r.takeWhile jsIsSpace).length
  let z5 := r2.take 5
  if z5.length = 5 ∧ z5.all jsIsDigit then
    let r3 := r2.drop 5
    let z4 := (r3.drop 1).take 4
    if r3.head? = some '-' ∧ z4.length = 4 ∧ z4.all jsIsDigit
    then z5 ++ '-' :: z4 else z5
  else []

/-- First (leftmost) match of `/([A-Z]{2})\s*(\d{5}(?:-\d{4})?)?/` in `s`:
the two-letter state code and the (possibly empty) ZIP group. -/
def findStateZip : Str → Option (Str × Str)
  | [] => none
  | c :: rest =>
    match rest with
    | [] => none
    | d :: rest2 =>
      if isUpperAZ c && isUpperAZ d then some ([c, d], zipScan rest2)
      else findStateZip rest

/-- `parseAddress` (from the source): comma-split, trim, then
street/city/state-zip positional extraction. -/
structure ParsedAddress where
  street : Str
  city : Str
  state : Str
  zip : Str
deriving DecidableEq

def parseAddress (fullAddress : Str) : ParsedAddress :=
  let parts := (splitComma fullAddress).map jsTrim
  let street := parts.getD 0 []
  let city := parts.getD 1 []
  let stateZip := parts.getD 2 []
  match findStateZip stateZip with
  | some (st, zp) => ⟨street, city, st, zp⟩
  | none => ⟨street, city, [], []⟩

/--
`normalizePhone` (from the source): keep only digits; drop a leading `1`
from an 11-digit result; truncate anything longer than 10 digits to the
first 10.  `if (!phone) return ''` is the empty-string guard.
-/
def normalizePhone (phone : Str) : Str :=
  if phone.isEmpty then []
  else
    let digits := phone.filter jsIsDigit
    let digits :=
      if digits.length = 11 ∧ digits.head? = some '1' then digits.drop 1 else digits
    if digits.length > 10 then digits.take 10 else digits

/-- `NAPData` (the `NAPRecord` of the spec): `phone` is optional. -/
structure NAPData where
  name : Str
  address : Str
  phone : Option Str
deriving DecidableEq

/-- `NormalizedNAP` (from the source). -/
structure NormalizedNAP where
  name : Str
  address : Str
  phone : Str
  street : Str
  city : Str
  state : Str
  zip : Str
deriving DecidableEq

/-- `normalizeNAP` (from the source). -/
def normalizeNAP (nap : NAPData) : NormalizedNAP :=
  let p := parseAddress nap.address
  { name := normalizeName nap.name
    address := normalizeAddress nap.address
    phone := normalizePhone (nap.phone.getD [])
    street := normalizeAddress p.street
    city := (jsToLower p.city).filter isLowerAZ
    state := jsToUpper p.state
    zip := p.zip.filter jsIsDigit }

/--
The dynamic-programming matrix of the source's `levenshteinDistance`:
`levMatrix str1 str2 i j` is the value of cell `matrix[i][j]`
(`str2` indexes rows, `str1` indexes columns, exactly as in the code;
`matrix[i][0] = i`, `matrix[0][j] = j`, and the inner cell compares
`str2.charAt(i-1)` with `str1.charAt(j-1)`).
-/
def levMatrix (str1 str2 : Str) : Nat → Nat → Nat
  | i, 0 => i
  | 0, j + 1 => j + 1
  | i + 1, j + 1 =>
    if str2.getD i default = str1.getD j default then levMatrix str1 str2 i j
    else
      min (min (levMatrix str1 str2 i j + 1) (levMatrix str1 str2 (i + 1) j + 1))
        (levMatrix str1 str2 i (j + 1) + 1)
  termination_by i j => (i, j)

/-- `levenshteinDistance` (from the source): the bottom-right matrix cell. -/
def levenshteinDistance (str1 str2 : Str) : Nat :=
  levMatrix str1 str2 str2.length str1.length

/-- `levenshteinSimilarity` (from the source), with JS numbers modelled
in `ℚ`. -/
def levenshteinSimilarity (str1 str2 : Str) : ℚ :=
  let longer := if str1.length > str2.length then str1 else str2
  let shorter := if str1.length > str2.length then str2 else str1
  if longer.length = 0 then 1
  else ((longer.length : ℚ) - levenshteinDistance longer shorter) / longer.length

/-- The `details` sub-object of a `compareNAP` result. -/
structure MatchDetails where
  nameScore : ℚ
  addressScore : ℚ
  phoneScore : ℚ
deriving DecidableEq

/-- The result object of `compareNAP`. -/
structure MatchResult where
  nameMatch : Bool
  addressMatch : Bool
  phoneMatch : Bool
  overallMatch : Bool
  confidence : Nat
  details : MatchDetails
deriving DecidableEq

/-- The comparison/scoring part of `compareNAP` (from the source), acting on
the two already-normalized records (`normSource`, `normTarget`). -/
def compareNorm (normSource normTarget : NormalizedNAP) : MatchResult :=
  let nameMatch := jsIncludes normSource.name normTarget.name ||
    jsIncludes normTarget.name normSource.name ||
    decide (levenshteinSimilarity normSource.name normTarget.name > 0.8)
  let streetMatch := normSource.street == normTarget.street ||
    jsIncludes normSource.street normTarget.street ||
    jsIncludes normTarget.street normSource.street
  let cityMatch := normSource.city == normTarget.city
  let zipMatch := normSource.zip == normTarget.zip ||
    normSource.zip.isEmpty || normTarget.zip.isEmpty
  let addressMatch := streetMatch && cityMatch && zipMatch
  let phoneMatch := normSource.phone == normTarget.phone ||
    normSource.phone.isEmpty || normTarget.phone.isEmpty
  let confidence := (if nameMatch then 40 else 0) + (if addressMatch then 50 else 0) +
    (if phoneMatch && !normSource.phone.isEmpty && !normTarget.phone.isEmpty
     then 10 else 0)
  let overallMatch := nameMatch && addressMatch
  { nameMatch := nameMatch
    addressMatch := addressMatch
    phoneMatch := phoneMatch
    overallMatch := overallMatch
    confidence := confidence
    details :=
      { nameScore :=
          if nameMatch then 100
          else levenshteinSimilarity normSource.name normTarget.name * 100
        addressScore :=
          if addressMatch then 100
          else (if streetMatch then 50 else 0) + (if cityMatch then 50 else 0)
        phoneScore := if phoneMatch then 100 else 0 } }

/-- `compareNAP` (from the source): normalize both records, then compare. -/
def compareNAP (source target : NAPData) : MatchResult :=
  compareNorm (normalizeNAP source) (normalizeNAP target)

/-- The reference unit-cost Levenshtein edit distance (insertion, deletion
and substitution each cost 1), in its textbook recursive form. -/
def levRef : Str → Str → Nat
  | [], ys => ys.length
  | _ :: xs, [] => xs.length + 1
  | x :: xs, y :: ys =>
    if x = y then levRef xs ys
    else 1 + min (levRef xs ys) (min (levRef (x :: xs) ys) (levRef xs (y :: ys)))
  termination_by xs ys => (xs.length, ys.length)

/-- Bounds-checked variant of the DP matrix: every character access is by
`getElem?` (failing instead of defaulting when out of range), so that
`levMatrixChecked = some …` expresses that the computation never reads out
of bounds. -/
def levMatrixChecked (str1 str2 : Str) : Nat → Nat → Option Nat
  | i, 0 => some i
  | 0, j + 1 => some (j + 1)
  | i + 1, j + 1 =>
    match str2[i]?, str1[j]? with
    | some c2, some c1 =>
      if c2 = c1 then levMatrixChecked str1 str2 i j
      else
        match levMatrixChecked str1 str2 i j, levMatrixChecked str1 str2 (i + 1) j,
            levMatrixChecked str1 str2 i (j + 1) with
        | some a, some b, some c => some (min (min (a + 1) (b + 1)) (c + 1))
        | _, _, _ => none
    | _, _ => none
  termination_by i j => (i, j)

/-- Bounds-checked `levenshteinDistance`. -/
def levenshteinDistanceChecked (str1 str2 : Str) : Option Nat :=
  levMatrixChecked str1 str2 str2.length str1.length

/-- `levenshteinSimilarity` with an explicit division-by-zero guard in
addition to the bounds-checked distance. -/
def levenshteinSimilarityChecked (str1 str2 : Str) : Option ℚ :=
  let longer := if str1.length > str2.length then str1 else str2
  let shorter := if str1.length > str2.length then str2 else str1
  if longer.length = 0 then some 1
  else
    match levenshteinDistanceChecked longer shorter with
    | none => none
    | some d =>
      if (longer.length : ℚ) = 0 then none
      else some (((longer.length : ℚ) - d) / longer.length)

/-- The comparison/scoring part of `compareNAP` with the Levenshtein
computation bounds-checked and division guarded. -/
def compareNormChecked (normSource normTarget : NormalizedNAP) : Option MatchResult :=
  match levenshteinSimilarityChecked normSource.name normTarget.name with
  | none => none
  | some sim =>
    let nameMatch := jsIncludes normSource.name normTarget.name ||
      jsIncludes normTarget.name normSource.name || decide (sim > 0.8)
    let streetMatch := normSource.street == normTarget.street ||
      jsIncludes normSource.street normTarget.street ||
      jsIncludes normTarget.street normSource.street
    let cityMatch := normSource.city == normTarget.city
    let zipMatch := normSource.zip == normTarget.zip ||
      normSource.zip.isEmpty || normTarget.zip.isEmpty
    let addressMatch := streetMatch && cityMatch && zipMatch
    let phoneMatch := normSource.phone == normTarget.phone ||
      normSource.phone.isEmpty || normTarget.phone.isEmpty
    let confidence := (if nameMatch then 40 else 0) +
      (if addressMatch then 50 else 0) +
      (if phoneMatch && !normSource.phone.isEmpty && !normTarget.phone.isEmpty
       then 10 else 0)
    some
      { nameMatch := nameMatch
        addressMatch := addressMatch
        phoneMatch := phoneMatch
        overallMatch := nameMatch && addressMatch
        confidence := confidence
        details :=
          { nameScore := if nameMatch then 100 else sim * 100
            addressScore :=
              if addressMatch then 100
              else (if streetMatch then 50 else 0) + (if cityMatch then 50 else 0)
            phoneScore := if phoneMatch then 100 else 0 } }

/-- `compareNAP` where the Levenshtein computation is bounds-checked and
division is guarded: `= some r` states that no failure can occur. -/
def compareNAPChecked (source target : NAPData) : Option MatchResult :=
  compareNormChecked (normalizeNAP source) (normalizeNAP target)

/-- No two consecutive characters of the string are upper-case ASCII
letters (so `[A-Z]{2}` cannot match anywhere in it). -/
def noTwoUpper : Str → Bool
  | [] => true
  | [_] => true
  | a :: b :: r => !(isUpperAZ a && isUpperAZ b) && noTwoUpper (b :: r)

/-- The `userBusiness` record of the source's example-usage block
(scenario 1 `source`). -/
def userBusiness : NAPData :=
  ⟨"The Gents Place".toList, "10225 Research Blvd #310, Austin, TX 78759".toList,
    some ("(512) 555-1234".toList)⟩

/-- The `yelpBusiness` record of the source's example-usage block
(scenario 1 `target`). -/
def yelpBusiness : NAPData :=
  ⟨"Gents Place Barbershop".toList,
    "10225 Research Boulevard Suite 310, Austin, Texas 78759".toList,
    some ("512-555-1234".toList)⟩

/-! ## Helper lemmas -/

theorem isPrefixOf_self (s : Str) : s.isPrefixOf s = true := by
  induction s with
  | nil => rfl
  | cons c t ih => simp [List.isPrefixOf, ih]

theorem jsIncludes_self (s : Str) : jsIncludes s s = true := by
  cases s with
  | nil => rfl
  | cons c t => simp [jsIncludes, isPrefixOf_self]

theorem jsIncludes_nil (hay : Str) : jsIncludes hay [] = true := by
  cases hay with
  | nil => rfl
  | cons c t => simp [jsIncludes, List.isPrefixOf]

theorem sum_ite3_le_90 (b1 b2 : Bool) (P : Prop) [Decidable P] (hP : ¬P) :
    (if b1 then (40 : Nat) else 0) + (if b2 then 50 else 0) +
      (if P then 10 else 0) ≤ 90 := by
  rw [if_neg hP]; cases b1 <;> cases b2 <;> simp

theorem weight10_eq (b : Bool) (p1 p2 : Str) :
    (if b && !p1.isEmpty && !p2.isEmpty then (10 : Nat) else 0) =
      if b = true ∧ p1 ≠ [] ∧ p2 ≠ [] then 10 else 0 := by
  cases b <;> cases p1 <;> cases p2 <;> simp

/-! ## Claim theorems -/

/-- **C1.** For every pair of `NAPData` records, the `confidence` returned by
`compareNAP` is exactly `40` for a name match plus `50` for an address match
plus `10` only when the phones match *and* both normalized phones are
non-empty; consequently, when either normalized phone is empty the
confidence is at most `90`. -/
theorem confidence_is_weighted_sum (s t : NAPData) :
    ((compareNAP s t).confidence =
      (if (compareNAP s t).nameMatch then 40 else 0) +
        (if (compareNAP s t).addressMatch then 50 else 0) +
        (if (compareNAP s t).phoneMatch = true ∧ (normalizeNAP s).phone ≠ [] ∧
            (normalizeNAP t).phone ≠ [] then 10 else 0)) ∧
    ((normalizeNAP s).phone = [] ∨ (normalizeNAP t).phone = [] →
      (compareNAP s t).confidence ≤ 90) := by
  have e : compareNAP s t = compareNorm (normalizeNAP s) (normalizeNAP t) := rfl
  rw [e]
  generalize normalizeNAP s = ns
  generalize normalizeNAP t = nt
  constructor
  · simp only [compareNorm]
    rw [weight10_eq]
  · intro h
    simp only [compareNorm]
    rw [weight10_eq]
    refine sum_ite3_le_90 _ _ _ ?_
    rintro ⟨-, h1, h2⟩
    rcases h with h | h
    · exact h1 h
    · exact h2 h

/-- Witness for C1 at a concrete input (the implication hypothesis of the
second conjunct discharged at a record with no phone). -/
theorem confidence_is_weighted_sum_witness :
    (normalizeNAP ⟨"A".toList, "B".toList, none⟩).phone = [] ∧
      (compareNAP ⟨"A".toList, "B".toList, none⟩
        ⟨"C".toList, "D".toList, none⟩).confidence ≤ 90 :=
  ⟨by decide, (confidence_is_weighted_sum _ _).2 (Or.inl (by decide))⟩

/-- **C6.** Comparing a record with all three fields non-empty against
itself yields an overall match with confidence at least 90. -/
theorem compareNAP_self (x : NAPData) (p : Str) (hn : x.name ≠ [])
    (ha : x.address ≠ []) (hp : x.phone = some p) (hpe : p ≠ []) :
    (compareNAP x x).overallMatch = true ∧ 90 ≤ (compareNAP x x).confidence := by
  have e : compareNAP x x = compareNorm (normalizeNAP x) (normalizeNAP x) := rfl
  rw [e]
  generalize normalizeNAP x = n
  constructor
  · simp [compareNorm, jsIncludes_self]
  · simp only [compareNorm, jsIncludes_self, beq_self_eq_true, Bool.true_or,
      Bool.or_self, Bool.true_and, Bool.and_self, if_true]
    split <;> omega

/-- Witness for C6: the theorem applied to the repository's example record. -/
theorem compareNAP_self_witness :
    (compareNAP userBusiness userBusiness).overallMatch = true ∧
      90 ≤ (compareNAP userBusiness userBusiness).confidence :=
  compareNAP_self userBusiness ("(512) 555-1234".toList) (by decide) (by decide)
    (by decide) (by decide)

/-- **C8.** If the source record's name normalizes to the empty string, the
substring-containment check succeeds against every target, so `nameMatch`
is `true` for every target record. -/
theorem empty_normalized_name_matches_all (s t : NAPData)
    (h : normalizeName s.name = []) : (compareNAP s t).nameMatch = true := by
  have e : compareNAP s t = compareNorm (normalizeNAP s) (normalizeNAP t) := rfl
  have h0 : (normalizeNAP s).name = [] := h
  rw [e]
  simp only [compareNorm]
  rw [h0, jsIncludes_nil]
  cases jsIncludes [] (normalizeNAP t).name <;> rfl

/-- Witness for C8: a name made only of stripped tokens (`"The LLC"`)
normalizes to the empty string and then matches an arbitrary target name. -/
theorem empty_normalized_name_matches_all_witness :
    (compareNAP ⟨"The LLC".toList, "1 Main St".toList, none⟩
      ⟨"Completely Different Business".toList, "2 Oak Ave".toList, none⟩).nameMatch
      = true :=
  empty_normalized_name_matches_all _ _ (by decide)

/-- **C2.** Evaluation of `compareNAP` at the spec's scenario-1 records (the
`userBusiness`/`yelpBusiness` example of the source): the name and phone
match, but `addressMatch` is `false` (the `'blvd.'` dictionary key is pasted
unescaped into the regex, so `/\bblvd.\b/` swallows the space after "blvd"
and glues it to "suite", while `#310` survives because `\b` never matches
between a space and `#`; the two normalized streets then fail the
equality/containment tests).  Hence `overallMatch` is `false` and the
confidence is `50`, not the claimed `100`. -/
theorem scenario1_code_result :
    (compareNAP userBusiness yelpBusiness).nameMatch = true ∧
    (compareNAP userBusiness yelpBusiness).phoneMatch = true ∧
    (compareNAP userBusiness yelpBusiness).addressMatch = false ∧
    (compareNAP userBusiness yelpBusiness).overallMatch = false ∧
    (compareNAP userBusiness yelpBusiness).confidence = 50 := by decide

/-- **C3.** Evaluation of `normalizeAddress` at the claim's own instance:
`"10225 Research Blvd #310"` keeps its suite number (no word boundary ever
holds next to `#`, so neither the `'#' → 'ste'` rewrite nor the
suite-removal regex can fire), while `"10225 Research Boulevard Suite 310"`
keeps the word "suite" glued to "blvd" (the unescaped `'blvd.'` key eats the
following space, after which `\bsuite\b` no longer has a boundary), so the
two normalizations differ.  Pure abbreviation-style differences
(`Blvd` vs `Boulevard`) do still normalize identically, as the last
conjunct shows. -/
theorem normalizeAddress_suite_divergence :
    normalizeAddress ("10225 Research Blvd #310".toList) =
      "10225researchblvd310".toList ∧
    normalizeAddress ("10225 Research Boulevard Suite 310".toList) =
      "10225researchblvdsuite310".toList ∧
    normalizeAddress ("10225 Research Blvd #310".toList) ≠
      normalizeAddress ("10225 Research Boulevard Suite 310".toList) ∧
    normalizeAddress ("10225 Research Blvd Suite 310".toList) =
      normalizeAddress ("10225 Research Boulevard Suite 310".toList) := by decide

/-- **C4, counterexample.** `normalizePhone` applied to `"123"` returns
`"123"`: three digits, neither empty nor exactly ten digits, refuting the
claimed "empty or exactly 10 digits" shape. -/
theorem normalizePhone_not_ten_digit :
    normalizePhone ("123".toList) = "123".toList ∧
      ¬((normalizePhone ("123".toList)).length = 0 ∨
        (normalizePhone ("123".toList)).length = 10) := by decide

/-- **C4, amended.** For every input, `normalizePhone` returns a digit-only
string of *at most* ten digits (not necessarily empty or exactly ten); an
11-digit result that starts with `1` has the leading `1` dropped, and
whenever more than ten digits remain the output is truncated to exactly
ten. -/
theorem normalizePhone_shape (p : Str) :
    (∀ c ∈ normalizePhone p, jsIsDigit c = true) ∧
    (normalizePhone p).length ≤ 10 ∧
    ((p.filter jsIsDigit).length = 11 → (p.filter jsIsDigit).head? = some '1' →
      normalizePhone p = (p.filter jsIsDigit).drop 1) ∧
    (10 < (p.filter jsIsDigit).length → (normalizePhone p).length = 10) := by
  cases p with
  | nil => exact ⟨by decide, by decide, by decide, by decide⟩
  | cons a q =>
    simp only [normalizePhone, List.isEmpty_cons, Bool.false_eq_true, if_false]
    by_cases h11 : (List.filter jsIsDigit (a :: q)).length = 11 ∧
        (List.filter jsIsDigit (a :: q)).head? = some '1'
    · rw [if_pos h11]
      have hlen : (List.drop 1 (List.filter jsIsDigit (a :: q))).length = 10 := by
        rw [List.length_drop]; omega
      rw [if_neg (by omega)]
      refine ⟨?_, by omega, fun _ _ => rfl, fun _ => hlen⟩
      intro c hc
      exact List.of_mem_filter ((List.drop_sublist 1 _).subset hc)
    · rw [if_neg h11]
      by_cases h10 : 10 < (List.filter jsIsDigit (a :: q)).length
      · rw [if_pos h10]
        have hlen : (List.take 10 (List.filter jsIsDigit (a :: q))).length = 10 := by
          rw [List.length_take]; omega
        refine ⟨?_, by omega, fun h1 h2 => absurd ⟨h1, h2⟩ h11, fun _ => hlen⟩
        intro c hc
        exact List.of_mem_filter ((List.take_sublist 10 _).subset hc)
      · rw [if_neg h10]
        refine ⟨?_, by omega, fun h1 _ => by omega, fun h1 => by omega⟩
        intro c hc
        exact List.of_mem_filter hc

/-- Witness for the amended C4: an 11-digit phone with country code gets the
leading `1` dropped, and a phone with an extension is truncated to ten
digits. -/
theorem normalizePhone_shape_witness :
    normalizePhone ("1-512-555-1234".toList) =
      (("1-512-555-1234".toList).filter jsIsDigit).drop 1 ∧
    (normalizePhone ("1 (512) 555-1234 ext 99".toList)).length = 10 :=
  ⟨(normalizePhone_shape _).2.2.1 (by decide) (by decide),
   (normalizePhone_shape _).2.2.2 (by decide)⟩

/-- **C7, counterexample.** A pair in which exactly one address is blank and
the other is non-blank but comma-free: the blank side parses to empty
street/city/zip, the non-blank side has an empty parsed city as well (no
second comma segment), so `cityMatch` holds, `streetMatch` holds by empty
containment, `zipMatch` holds by empty zip — `addressMatch` is `true`,
refuting the claim. -/
theorem blank_address_counterexample :
    ((⟨"Joes".toList, "".toList, none⟩ : NAPData).address = [] ∧
      (⟨"Joes".toList, "10225 Research Blvd".toList, none⟩ : NAPData).address ≠ []) ∧
    (compareNAP ⟨"Joes".toList, "".toList, none⟩
      ⟨"Joes".toList, "10225 Research Blvd".toList, none⟩).addressMatch = true := by
  decide

/-- **C7, amended.** When exactly one side's address is blank *and the other
side's parsed city is non-empty* (it has a second comma segment containing
letters), `addressMatch` is `false`: the blank side's city parses to the
empty string and city equality fails. -/
theorem blank_address_addressMatch_false (s t : NAPData)
    (h : (s.address = [] ∧ (normalizeNAP t).city ≠ []) ∨
      (t.address = [] ∧ (normalizeNAP s).city ≠ [])) :
    (compareNAP s t).addressMatch = false := by
  have e : compareNAP s t = compareNorm (normalizeNAP s) (normalizeNAP t) := rfl
  have hcity : ∀ u : NAPData, u.address = [] → (normalizeNAP u).city = [] := by
    intro u hu
    have hb : (normalizeNAP u).city =
        (jsToLower (parseAddress u.address).city).filter isLowerAZ := rfl
    rw [hb, hu]; rfl
  rw [e]
  rcases h with ⟨h1, h2⟩ | ⟨h1, h2⟩
  · simp only [compareNorm]
    rw [hcity s h1]
    have hbe : (([] : Str) == (normalizeNAP t).city) = false := by
      cases hnt : (normalizeNAP t).city with
      | nil => exact absurd hnt h2
      | cons a l => rfl
    rw [hbe]; simp
  · simp only [compareNorm]
    rw [hcity t h1]
    have hbe : ((normalizeNAP s).city == ([] : Str)) = false := by
      cases hns : (normalizeNAP s).city with
      | nil => exact absurd hns h2
      | cons a l => rfl
    rw [hbe]; simp

/-- Witness for the amended C7: blank source address against a well-formed
target address with city "Austin". -/
theorem blank_address_addressMatch_false_witness :
    (compareNAP ⟨"Joes".toList, "".toList, none⟩
      ⟨"Joes".toList, "1 Main St, Austin, TX 78759".toList, none⟩).addressMatch
      = false :=
  blank_address_addressMatch_false _ _ (Or.inl ⟨rfl, by decide⟩)

theorem noTwoUpper_cons (a : Char) (l : Str) (h : noTwoUpper (a :: l) = true) :
    noTwoUpper l = true := by
  cases l with
  | nil => rfl
  | cons b r =>
    simp only [noTwoUpper, Bool.and_eq_true] at h
    exact h.2

theorem noTwoUpper_dropRight (x t : Str) (h : noTwoUpper (x ++ t) = true) :
    noTwoUpper x = true := by
  induction x with
  | nil => rfl
  | cons a x ih =>
    cases x with
    | nil => rfl
    | cons b r =>
      simp only [noTwoUpper, List.cons_append, Bool.and_eq_true] at h ⊢
      exact ⟨h.1, ih h.2⟩

theorem noTwoUpper_dropLeft (s x : Str) (h : noTwoUpper (s ++ x) = true) :
    noTwoUpper x = true := by
  induction s with
  | nil => exact h
  | cons a s ih => exact ih (noTwoUpper_cons a (s ++ x) h)

theorem noTwoUpper_jsTrim (l : Str) (h : noTwoUpper l = true) :
    noTwoUpper (jsTrim l) = true := by
  have h1 : noTwoUpper (l.dropWhile jsIsSpace) = true := by
    rcases List.dropWhile_suffix (l := l) (p := jsIsSpace) with ⟨u, hu⟩
    exact noTwoUpper_dropLeft u _ (by rw [hu]; exact h)
  rcases List.dropWhile_suffix (l := (l.dropWhile jsIsSpace).reverse)
      (p := jsIsSpace) with ⟨u, hu⟩
  have hsplit : ((l.dropWhile jsIsSpace).reverse.dropWhile jsIsSpace).reverse ++
      u.reverse = l.dropWhile jsIsSpace := by
    have hr := congrArg List.reverse hu
    simpa [List.reverse_append] using hr
  refine noTwoUpper_dropRight _ u.reverse ?_
  show noTwoUpper
    (((l.dropWhile jsIsSpace).reverse.dropWhile jsIsSpace).reverse ++ u.reverse) = true
  rw [hsplit]; exact h1

theorem findStateZip_none (l : Str) (h : noTwoUpper l = true) :
    findStateZip l = none := by
  induction l with
  | nil => rfl
  | cons c rest ih =>
    cases rest with
    | nil => rfl
    | cons d r2 =>
      simp only [noTwoUpper, Bool.and_eq_true] at h
      have hcd : (isUpperAZ c && isUpperAZ d) = false := by
        cases hv : (isUpperAZ c && isUpperAZ d)
        · rfl
        · rw [hv] at h; exact absurd h.1 (by decide)
      simp only [findStateZip, hcd, Bool.false_eq_true, if_false]
      exact ih h.2

theorem getD_map_jsTrim (l : List Str) (n : Nat) :
    (l.map jsTrim).getD n [] = jsTrim (l.getD n []) := by
  induction l generalizing n with
  | nil => simp [jsTrim]
  | cons a t ih =>
    cases n with
    | zero => rfl
    | succ m => simpa using ih m

/-- **C10.** If the third comma-separated segment of a record's address
contains no two consecutive upper-case ASCII letters (e.g. a lower-case
state code), the state/ZIP regex `([A-Z]{2})\s*(\d{5}(?:-\d{4})?)?` cannot
match, so `normalizeNAP` returns empty `state` and empty `zip` — even when a
5-digit ZIP is present in that segment. -/
theorem lowercase_state_yields_empty_state_zip (r : NAPData)
    (h : noTwoUpper ((splitComma r.address).getD 2 []) = true) :
    (normalizeNAP r).state = [] ∧ (normalizeNAP r).zip = [] := by
  have hseg : (((splitComma r.address).map jsTrim).getD 2 []) =
      jsTrim ((splitComma r.address).getD 2 []) := getD_map_jsTrim _ _
  have hnone : findStateZip (((splitComma r.address).map jsTrim).getD 2 []) = none := by
    rw [hseg]; exact findStateZip_none _ (noTwoUpper_jsTrim _ h)
  have hpa : (parseAddress r.address).state = [] ∧ (parseAddress r.address).zip = [] := by
    constructor <;> (simp only [parseAddress]; rw [hnone])
  have hstate : (normalizeNAP r).state = jsToUpper (parseAddress r.address).state := rfl
  have hzip : (normalizeNAP r).zip =
      (parseAddress r.address).zip.filter jsIsDigit := rfl
  rw [hstate, hzip, hpa.1, hpa.2]
  exact ⟨rfl, rfl⟩

/-- Witness for C10: `"123 Main St, austin, tx 78759"` has a lower-case
state, so state and ZIP come back empty although a ZIP is present. -/
theorem lowercase_state_witness :
    noTwoUpper ((splitComma ("123 Main St, austin, tx 78759".toList)).getD 2 [])
      = true ∧
    ((normalizeNAP ⟨"Cafe".toList, "123 Main St, austin, tx 78759".toList, none⟩).state
        = [] ∧
      (normalizeNAP ⟨"Cafe".toList, "123 Main St, austin, tx 78759".toList, none⟩).zip
        = []) :=
  ⟨by decide, lowercase_state_yields_empty_state_zip _ (by decide)⟩

theorem levRef_nil_right (xs : Str) : levRef xs [] = xs.length := by
  cases xs <;> simp [levRef]

theorem min_plus_one (x y : Nat) : min (1 + x) (1 + y) = 1 + min x y :=
  min_add_add_left 1 x y

/-- The min-algebra identity behind the last-character recurrence: regrouping
the nine sub-distances of a double character append. -/
theorem min_tower (a b c d e f g h i : Nat) :
    1 + min (1 + min a (min b c)) (min (1 + min d (min e f)) (1 + min g (min h i))) =
      1 + min (1 + min a (min d g)) (min (1 + min b (min e h)) (1 + min c (min f i))) := by
  simp only [min_plus_one]
  simp only [min_assoc, min_comm, min_left_comm]

theorem min3_plus (a b c : Nat) :
    min (min (a + 1) (b + 1)) (c + 1) = 1 + min a (min c b) := by
  omega

/-- The "last character" recurrence of the reference edit distance: the
textbook recursion peels characters off the front, and the same recurrence
holds when peeling them off the back. -/
theorem levRef_snoc_aux : ∀ (n : Nat) (xs ys : Str) (x y : Char),
    xs.length + ys.length ≤ n →
    levRef (xs ++ [x]) (ys ++ [y]) =
      if x = y then levRef xs ys
      else 1 + min (levRef xs ys)
        (min (levRef (xs ++ [x]) ys) (levRef xs (ys ++ [y]))) := by
  intro n
  induction n with
  | zero =>
    intro xs ys x y hlen
    have hx : xs = [] := List.length_eq_zero.mp (by omega)
    have hy : ys = [] := List.length_eq_zero.mp (by omega)
    subst hx; subst hy
    by_cases hxy : x = y <;> simp [levRef, hxy]
  | succ n ih =>
    intro xs ys x y hlen
    cases xs with
    | nil =>
      cases ys with
      | nil => by_cases hxy : x = y <;> simp [levRef, hxy]
      | cons y' ys' =>
        have hIH := ih [] ys' x y (by simp at hlen ⊢; omega)
        simp only [List.nil_append] at hIH
        simp only [List.nil_append, List.cons_append]
        simp only [levRef]
        rw [hIH]
        simp only [levRef, List.length_append, List.length_cons, List.length_nil]
        split_ifs <;> omega
    | cons x' xs' =>
      cases ys with
      | nil =>
        have hIH := ih xs' [] x y (by simp at hlen ⊢; omega)
        simp only [List.nil_append] at hIH
        simp only [List.cons_append, List.nil_append]
        simp only [levRef, levRef_nil_right]
        rw [hIH]
        simp only [levRef, levRef_nil_right, List.length_append, List.length_cons,
          List.length_nil]
        split_ifs <;> omega
      | cons y' ys' =>
        have S := ih xs' ys' x y (by simp at hlen ⊢; omega)
        have T := ih (x' :: xs') ys' x y (by simp at hlen ⊢; omega)
        have U := ih xs' (y' :: ys') x y (by simp at hlen ⊢; omega)
        simp only [List.cons_append] at S T U ⊢
        simp only [levRef]
        rw [S, T, U]
        by_cases hxy : x = y
        · by_cases hp : x' = y'
          · split_ifs <;> rfl
          · split_ifs <;> rfl
        · by_cases hp : x' = y'
          · split_ifs <;> rfl
          · split_ifs
            exact min_tower _ _ _ _ _ _ _ _ _

theorem levRef_snoc (xs ys : Str) (x y : Char) :
    levRef (xs ++ [x]) (ys ++ [y]) =
      if x = y then levRef xs ys
      else 1 + min (levRef xs ys)
        (min (levRef (xs ++ [x]) ys) (levRef xs (ys ++ [y]))) :=
  levRef_snoc_aux (xs.length + ys.length) xs ys x y le_rfl

theorem levRef_comm_aux : ∀ (n : Nat) (xs ys : Str), xs.length + ys.length ≤ n →
    levRef xs ys = levRef ys xs := by
  intro n
  induction n with
  | zero =>
    intro xs ys hlen
    have hx : xs = [] := List.length_eq_zero.mp (by omega)
    have hy : ys = [] := List.length_eq_zero.mp (by omega)
    subst hx; subst hy; rfl
  | succ n ih =>
    intro xs ys hlen
    cases xs with
    | nil => simp [levRef, levRef_nil_right]
    | cons x' xs' =>
      cases ys with
      | nil => simp [levRef, levRef_nil_right]
      | cons y' ys' =>
        have I1 := ih xs' ys' (by simp at hlen ⊢; omega)
        have I2 := ih (x' :: xs') ys' (by simp at hlen ⊢; omega)
        have I3 := ih xs' (y' :: ys') (by simp at hlen ⊢; omega)
        simp only [levRef]
        rw [I1, I2, I3]
        split_ifs with h1 h2 h2
        · rfl
        · exact absurd h1.symm h2
        · exact absurd h2.symm h1
        · simp only [min_assoc, min_comm, min_left_comm]

theorem levRef_comm (xs ys : Str) : levRef xs ys = levRef ys xs :=
  levRef_comm_aux (xs.length + ys.length) xs ys le_rfl

/-- The reference edit distance is invariant under simultaneously reversing
both strings. -/
theorem levRef_rev_aux : ∀ (n : Nat) (xs ys : Str), xs.length + ys.length ≤ n →
    levRef xs.reverse ys.reverse = levRef xs ys := by
  intro n
  induction n with
  | zero =>
    intro xs ys hlen
    have hx : xs = [] := List.length_eq_zero.mp (by omega)
    have hy : ys = [] := List.length_eq_zero.mp (by omega)
    subst hx; subst hy; rfl
  | succ n ih =>
    intro xs ys hlen
    cases xs with
    | nil => simp [levRef]
    | cons x' xs' =>
      cases ys with
      | nil => simp [levRef, levRef_nil_right]
      | cons y' ys' =>
        have I1 := ih xs' ys' (by simp at hlen ⊢; omega)
        have I2 := ih (x' :: xs') ys' (by simp at hlen ⊢; omega)
        have I3 := ih xs' (y' :: ys') (by simp at hlen ⊢; omega)
        simp only [List.reverse_cons] at I2 I3 ⊢
        rw [levRef_snoc, I1, I2, I3]
        simp only [levRef]

theorem levRef_rev (xs ys : Str) : levRef xs.reverse ys.reverse = levRef xs ys :=
  levRef_rev_aux (xs.length + ys.length) xs ys le_rfl

/-- Correctness of the source's DP matrix: cell `(i, j)` holds the reference
edit distance between the reversed `j`-prefix of `str1` and the reversed
`i`-prefix of `str2` (reversed prefixes grow at the head, which is what the
head-recursive reference consumes). -/
theorem levMatrix_correct (str1 str2 : Str) : ∀ (n i j : Nat), i + j ≤ n →
    i ≤ str2.length → j ≤ str1.length →
    levMatrix str1 str2 i j =
      levRef (str1.take j).reverse (str2.take i).reverse := by
  intro n
  induction n with
  | zero =>
    intro i j hn hi hj
    have hi0 : i = 0 := by omega
    have hj0 : j = 0 := by omega
    subst hi0; subst hj0
    simp [levMatrix, levRef]
  | succ n ih =>
    intro i j hn hi hj
    cases j with
    | zero =>
      simp only [levMatrix, List.take_zero, List.reverse_nil, levRef]
      rw [List.length_reverse, List.length_take]
      omega
    | succ j =>
      cases i with
      | zero =>
        simp only [levMatrix, List.take_zero, List.reverse_nil, levRef_nil_right]
        rw [List.length_reverse, List.length_take]
        omega
      | succ i =>
        have hi' : i < str2.length := by omega
        have hj' : j < str1.length := by omega
        have ht1 : (str1.take (j + 1)).reverse =
            str1[j] :: (str1.take j).reverse := by
          rw [List.take_succ, List.getElem?_eq_getElem hj']
          simp
        have ht2 : (str2.take (i + 1)).reverse =
            str2[i] :: (str2.take i).reverse := by
          rw [List.take_succ, List.getElem?_eq_getElem hi']
          simp
        have e1 := ih i j (by omega) (by omega) (by omega)
        have e2 := ih (i + 1) j (by omega) (by omega) (by omega)
        have e3 := ih i (j + 1) (by omega) (by omega) (by omega)
        rw [ht1, ht2]
        simp only [levMatrix, List.getD_eq_getElem _ _ hi', List.getD_eq_getElem _ _ hj']
        rw [e1, e2, e3, ht1, ht2]
        simp only [levRef]
        split_ifs with h1 h2 h2
        · rfl
        · exact absurd h1.symm h2
        · exact absurd h2.symm h1
        · exact min3_plus _ _ _

/-- The source's `levenshteinDistance` computes the reference edit
distance. -/
theorem levenshteinDistance_eq (str1 str2 : Str) :
    levenshteinDistance str1 str2 = levRef str1 str2 := by
  have h := levMatrix_correct str1 str2 (str2.length + str1.length)
    str2.length str1.length le_rfl le_rfl le_rfl
  rw [levenshteinDistance, h, List.take_length, List.take_length, levRef_rev]

/-- **C5.** `levenshteinSimilarity` equals `1 - D/max(|s1|,|s2|)` where `D`
is the reference unit-cost edit distance (in `ℚ`, where division by zero is
zero, the formula also covers the empty/empty case), and on two empty
strings it returns exactly `1`. -/
theorem levenshteinSimilarity_correct :
    (∀ s1 s2 : Str, levenshteinSimilarity s1 s2 =
      1 - (levRef s1 s2 : ℚ) / ((max s1.length s2.length : Nat) : ℚ)) ∧
    levenshteinSimilarity [] [] = 1 := by
  constructor
  · intro s1 s2
    simp only [levenshteinSimilarity]
    by_cases hgt : s1.length > s2.length
    · rw [if_pos hgt, if_pos hgt, if_neg (by omega), levenshteinDistance_eq]
      have hmax : max s1.length s2.length = s1.length := by omega
      rw [hmax]
      have hne : (s1.length : ℚ) ≠ 0 := Nat.cast_ne_zero.mpr (by omega)
      field_simp
    · rw [if_neg hgt, if_neg hgt]
      by_cases h0 : s2.length = 0
      · have h1 : s1.length = 0 := by omega
        have hs1 : s1 = [] := List.length_eq_zero.mp h1
        have hs2 : s2 = [] := List.length_eq_zero.mp h0
        subst hs1; subst hs2
        norm_num [levRef]
      · rw [if_neg h0, levenshteinDistance_eq, levRef_comm s2 s1]
        have hmax : max s1.length s2.length = s2.length := by omega
        rw [hmax]
        have hne : (s2.length : ℚ) ≠ 0 := Nat.cast_ne_zero.mpr (by omega)
        field_simp
  · norm_num [levenshteinSimilarity]

theorem levMatrixChecked_eq (str1 str2 : Str) : ∀ (n i j : Nat), i + j ≤ n →
    i ≤ str2.length → j ≤ str1.length →
    levMatrixChecked str1 str2 i j = some (levMatrix str1 str2 i j) := by
  intro n
  induction n with
  | zero =>
    intro i j hn hi hj
    have hi0 : i = 0 := by omega
    have hj0 : j = 0 := by omega
    subst hi0; subst hj0
    simp [levMatrixChecked, levMatrix]
  | succ n ih =>
    intro i j hn hi hj
    cases j with
    | zero => simp [levMatrixChecked, levMatrix]
    | succ j =>
      cases i with
      | zero => simp [levMatrixChecked, levMatrix]
      | succ i =>
        have hi' : i < str2.length := by omega
        have hj' : j < str1.length := by omega
        have e1 := ih i j (by omega) (by omega) (by omega)
        have e2 := ih (i + 1) j (by omega) (by omega) (by omega)
        have e3 := ih i (j + 1) (by omega) (by omega) (by omega)
        simp only [levMatrixChecked, levMatrix]
        rw [List.getElem?_eq_getElem hi', List.getElem?_eq_getElem hj',
          List.getD_eq_getElem _ _ hi', List.getD_eq_getElem _ _ hj']
        dsimp only
        by_cases heq : str2[i] = str1[j]
        · rw [if_pos heq, if_pos heq]
          exact e1
        · rw [if_neg heq, if_neg heq, e1, e2, e3]

theorem levenshteinSimilarityChecked_eq (s1 s2 : Str) :
    levenshteinSimilarityChecked s1 s2 = some (levenshteinSimilarity s1 s2) := by
  simp only [levenshteinSimilarityChecked, levenshteinSimilarity,
    levenshteinDistanceChecked, levenshteinDistance]
  by_cases hgt : s1.length > s2.length
  · rw [if_pos hgt, if_pos hgt]
    by_cases h0 : s1.length = 0
    · rw [if_pos h0, if_pos h0]
    · rw [if_neg h0, if_neg h0,
        levMatrixChecked_eq s1 s2 (s2.length + s1.length) s2.length s1.length
          le_rfl le_rfl le_rfl]
      dsimp only
      rw [if_neg (by exact_mod_cast h0)]
  · rw [if_neg hgt, if_neg hgt]
    by_cases h0 : s2.length = 0
    · rw [if_pos h0, if_pos h0]
    · rw [if_neg h0, if_neg h0,
        levMatrixChecked_eq s2 s1 (s1.length + s2.length) s1.length s2.length
          le_rfl le_rfl le_rfl]
      dsimp only
      rw [if_neg (by exact_mod_cast h0)]

/-- **C9.** `compareNAP` (and the `normalizeNAP` it invokes) is total: the
variant in which every Levenshtein matrix/character access is
bounds-checked and the similarity division is guarded against a zero
denominator never fails, and returns exactly the result of `compareNAP` on
every pair of records — including empty names, empty or comma-free
addresses, and absent phones. -/
theorem compareNAP_never_fails (s t : NAPData) :
    compareNAPChecked s t = some (compareNAP s t) := by
  have e1 : compareNAPChecked s t =
      compareNormChecked (normalizeNAP s) (normalizeNAP t) := rfl
  have e2 : compareNAP s t = compareNorm (normalizeNAP s) (normalizeNAP t) := rfl
  rw [e1, e2]
  generalize normalizeNAP s = ns
  generalize normalizeNAP t = nt
  simp only [compareNormChecked, compareNorm, levenshteinSimilarityChecked_eq]

end GeoAnalysis
